import Mathlib

/-!
Verification of the NextQS installation-report pipeline (`src/app.py`).

The Python source is shallowly embedded: each relevant function of the
source is translated into a computable Lean definition over `List Char`
/ `String` / `List` data, with `Option`/`Except` for fallible paths and
`ℚ` for exact numeric results.  Pandas `NaT` values are modelled as
`none`.  The theorems at the end of the file settle the frozen claims
about the program.
-/

/-! ## Character and string helpers (Python `str.strip`, `str.lower`) -/

/-- Whitespace characters recognised by Python's `str.strip` and `\s`
(the ASCII whitespace characters plus the non-breaking space, the only
non-ASCII whitespace occurring in this application's data). -/
def pyWs (c : Char) : Bool :=
  c = ' ' || c = '\t' || c = '\n' || c = '\r' || c = '\x0b' || c = '\x0c' || c = ' '

/-- Remove the maximal all-whitespace suffix of a character list. -/
def dropTrail : List Char → List Char
  | [] => []
  | c :: t =>
    match dropTrail t with
    | [] => if pyWs c then [] else [c]
    | r => c :: r

/-- Python `str.strip`: remove leading and trailing whitespace. -/
def pyStripL (cs : List Char) : List Char :=
  dropTrail (cs.dropWhile pyWs)

/-- Python `str.strip` on `String`s. -/
def pyStripStr (s : String) : String :=
  String.mk (pyStripL s.data)

/-- Last element of a character list. -/
def lastC : List Char → Option Char
  | [] => none
  | [c] => some c
  | _ :: c :: t => lastC (c :: t)


/-! ## `cliente_base` (`src/app.py` lines 329–346)

`re.sub(r"\s*(?:[-#]|nº|no\.?|num\.?|\.)?\s*\d+\s*$", "", s, flags=re.IGNORECASE)`
removes the leftmost suffix of the form
`whitespace* separator? whitespace* digits+ whitespace*`, and
`re.sub(r"\s{2,}", " ", s)` replaces every maximal run of two or more
whitespace characters by a single space. -/

/-- Matcher for `\s*\d+\s*` (anchored at both ends). -/
def tailNumMatch (cs : List Char) : Bool :=
  let c := cs.dropWhile pyWs
  let d := c.takeWhile Char.isDigit
  !d.isEmpty && (c.dropWhile Char.isDigit).all pyWs

/-- The separator alternatives `[-#]|nº|no\.?|num\.?|\.` (lower-cased;
`no\.?` and `num\.?` each expand to the variant with and without the dot). -/
def sepAlts : List (List Char) :=
  [['-'], ['#'], ['n', 'º'], ['n', 'o', '.'], ['n', 'o'], ['n', 'u', 'm', '.'], ['n', 'u', 'm'], ['.']]

/-- Case-insensitive prefix test (models `re.IGNORECASE` on the separator). -/
def lcStarts (sep cs : List Char) : Bool :=
  (cs.take sep.length).map Char.toLower == sep

/-- Whether a character list belongs to the language of
`\s*(?:[-#]|nº|no\.?|num\.?|\.)?\s*\d+\s*$` (the whole list is consumed). -/
def numSuffixMatch (cs : List Char) : Bool :=
  let c1 := cs.dropWhile pyWs
  tailNumMatch c1 || sepAlts.any (fun sep => lcStarts sep c1 && tailNumMatch (c1.drop sep.length))

/-- Embedding of `re.sub(pattern, "", s)` for the end-anchored suffix pattern: drop the
suffix starting at the leftmost position from which the pattern matches
through to the end of the string. -/
def stripNumSuffix : List Char → List Char
  | [] => []
  | c :: t => if numSuffixMatch (c :: t) then [] else c :: stripNumSuffix t

/-- Embedding of `re.sub(r"\s{2,}", " ", s)`: collapse each maximal run of two or more
whitespace characters to a single space (a lone whitespace character is
kept verbatim).  The flag records that the scanner is currently skipping
the remainder of an already-collapsed run. -/
def collapseWsAux : Bool → List Char → List Char
  | _, [] => []
  | inRun, a :: t =>
    if pyWs a then
      if inRun then collapseWsAux true t
      else
        match t with
        | [] => [a]
        | b :: _ => if pyWs b then ' ' :: collapseWsAux true t else a :: collapseWsAux false t
    else a :: collapseWsAux false t

def collapseWs (cs : List Char) : List Char :=
  collapseWsAux false cs

/-- Function `cliente_base` from `src/app.py` (string path; `None`/`NaN` inputs are
handled by the caller-side and yield `""`). -/
def clienteBaseL (cs : List Char) : List Char :=
  let s := pyStripL cs
  if s.isEmpty then []
  else pyStripL (collapseWs (stripNumSuffix s))

def cliente_base (s : String) : String :=
  String.mk (clienteBaseL s.data)

/-- Whether a string's final character is a decimal digit. -/
def endsInDigit (s : String) : Bool :=
  match lastC s.data with
  | some c => c.isDigit
  | none => false

/-- No two adjacent whitespace characters (the normal form produced by the
whitespace-collapsing substitution). -/
def noDW : List Char → Prop
  | [] => True
  | [_] => True
  | a :: b :: t => ¬(pyWs a = true ∧ pyWs b = true) ∧ noDW (b :: t)

/-! ## `_parse_duration_to_minutes` (`src/app.py` lines 198–247)

String path of the parser.  The result type is `ℚ` so that
`sec / 60.0` is exact.  The regular expressions of the source are
embedded as explicit scanners with the same leftmost-match semantics. -/

def digitVal (c : Char) : Nat := c.toNat - 48

/-- Python `int(...)` on a list of decimal digit characters. -/
def digitsToNat (ds : List Char) : Nat :=
  ds.foldl (fun a c => 10 * a + digitVal c) 0

/-- Value of `int-digits[.frac-digits]` as a rational. -/
def ratOfDigits (ip : List Char) (fp : Option (List Char)) : ℚ :=
  (digitsToNat ip : ℚ) +
    match fp with
    | some fs => (digitsToNat fs : ℚ) / (10 : ℚ) ^ fs.length
    | none => 0

/-- Matcher for `re.fullmatch` of the colon duration form, returning
`(hours, minutes, seconds?)` on success. -/
def colonSplit (cs : List Char) : Option (Nat × Nat × Option Nat) :=
  let hd := cs.takeWhile Char.isDigit
  if hd.length = 1 ∨ hd.length = 2 then
    match cs.dropWhile Char.isDigit with
    | ':' :: m1 :: m2 :: rest =>
      if m1.isDigit && m2.isDigit then
        match rest with
        | [] => some (digitsToNat hd, digitsToNat [m1, m2], none)
        | ':' :: s1 :: s2 :: [] =>
          if s1.isDigit && s2.isDigit then
            some (digitsToNat hd, digitsToNat [m1, m2], some (digitsToNat [s1, s2]))
          else none
        | _ => none
      else none
    | _ => none
  else none

/-- Word characters `\w` (ASCII part): letters, digits and underscore. -/
def isWordChar (c : Char) : Bool := c.isAlphanum || c = '_'

/-- Boundary `\b` after a unit word: the next character, if any, is not a word character. -/
def wordBoundary (cs : List Char) : Bool :=
  match cs with
  | [] => true
  | c :: _ => !isWordChar c

/-- Unit alternation `\s*(u₁|u₂|…)\b` starting at the given position. -/
def unitHere (units : List (List Char)) (cs : List Char) : Bool :=
  let c := cs.dropWhile pyWs
  units.any (fun u => u.isPrefixOf c && wordBoundary (c.drop u.length))

/-- Optional `[.,]\d+` fraction: returns the fraction digits and the rest. -/
def fracPart (cs : List Char) : Option (List Char × List Char) :=
  match cs with
  | c :: rest =>
    if c = '.' || c = ',' then
      let fs := rest.takeWhile Char.isDigit
      if fs.isEmpty then none else some (fs, rest.dropWhile Char.isDigit)
    else none
  | [] => none

/-- Embedding of the unit search regular expression: leftmost match,
returning the numeric capture group as a rational. -/
def searchNumUnit (units : List (List Char)) : List Char → Option ℚ
  | [] => none
  | c :: t =>
    let ds := (c :: t).takeWhile Char.isDigit
    let r1 := (c :: t).dropWhile Char.isDigit
    if ds.isEmpty then searchNumUnit units t
    else
      match fracPart r1 with
      | some (fs, r2) =>
        if unitHere units r2 then some (ratOfDigits ds (some fs)) else searchNumUnit units t
      | none =>
        if unitHere units r1 then some (ratOfDigits ds none) else searchNumUnit units t

/-- Fallback search for the first numeric substring. -/
def searchNum : List Char → Option ℚ
  | [] => none
  | c :: t =>
    if c.isDigit then
      let ds := (c :: t).takeWhile Char.isDigit
      let r1 := (c :: t).dropWhile Char.isDigit
      match fracPart r1 with
      | some (fs, _) => some (ratOfDigits ds (some fs))
      | none => some (ratOfDigits ds none)
    else searchNum t

def horaUnits : List (List Char) :=
  [['h'], ['h', 'o', 'r', 'a'], ['h', 'o', 'r', 'a', 's']]

def minUnits : List (List Char) :=
  [['m'], ['m', 'i', 'n'], ['m', 'i', 'n', 's'],
   ['m', 'i', 'n', 'u', 't', 'o'], ['m', 'i', 'n', 'u', 't', 'o', 's']]

/-- Function `_parse_duration_to_minutes` (string input path; numeric cells reach the
sheet as strings). -/
def _parse_duration_to_minutes (value : String) : Option ℚ :=
  let s := (pyStripL value.data).map Char.toLower
  if s.isEmpty then none
  else
    match colonSplit s with
    | some (h, m, none) => some ((h * 60 + m : ℕ) : ℚ)
    | some (h, m, some sec) => some (((h * 60 + m : ℕ) : ℚ) + (sec : ℚ) / 60)
    | none =>
      let mh := searchNumUnit horaUnits s
      let mm := searchNumUnit minUnits s
      match mh, mm with
      | none, none => searchNum s
      | _, _ => some ((mh.getD 0) * 60 + mm.getD 0)

/-! ## `parse_brl_money` (`src/app.py` lines 252–278) -/

/-- Python `str.replace(ab, "")` for a two-character pattern: delete every
non-overlapping occurrence, scanning left to right. -/
def removeSub2 (a b : Char) : List Char → List Char
  | [] => []
  | [c] => [c]
  | c :: d :: t =>
    if c = a && d = b then removeSub2 a b t
    else c :: removeSub2 a b (d :: t)

/-- Mantissa of a `pd.to_numeric` literal: `\d+(\.\d*)? | \.\d+`.
Returns the value and the unconsumed rest. -/
def parseMantissa (cs : List Char) : Option (ℚ × List Char) :=
  let ip := cs.takeWhile Char.isDigit
  let r1 := cs.dropWhile Char.isDigit
  if ip.isEmpty then
    match r1 with
    | '.' :: t =>
      let fp := t.takeWhile Char.isDigit
      if fp.isEmpty then none
      else some (ratOfDigits [] (some fp), t.dropWhile Char.isDigit)
    | _ => none
  else
    match r1 with
    | '.' :: t =>
      let fp := t.takeWhile Char.isDigit
      some (ratOfDigits ip (if fp.isEmpty then none else some fp), t.dropWhile Char.isDigit)
    | _ => some (ratOfDigits ip none, r1)

/-- Exponent suffix `[+-]?\d+` of a float literal, applied to the mantissa. -/
def applyExp (sgn q : ℚ) (cs : List Char) : Option ℚ :=
  let sc :=
    match cs with
    | '-' :: t => (false, t)
    | '+' :: t => (true, t)
    | t => (true, t)
  let ed := sc.2.takeWhile Char.isDigit
  if ed.isEmpty || !(sc.2.dropWhile Char.isDigit).isEmpty then none
  else
    some (sgn * q *
      (if sc.1 then (10 : ℚ) ^ digitsToNat ed else ((10 : ℚ) ^ digitsToNat ed)⁻¹))

/-- Embedding of `pd.to_numeric` on a string: a decimal literal with
optional sign and exponent; anything else coerces to `NaN` (`none`). -/
def parseDecQ (raw : List Char) : Option ℚ :=
  let cs := pyStripL raw
  match cs with
  | [] => none
  | _ =>
    let sc :=
      match cs with
      | '-' :: t => ((-1 : ℚ), t)
      | '+' :: t => ((1 : ℚ), t)
      | t => ((1 : ℚ), t)
    match parseMantissa sc.2 with
    | none => none
    | some (q, rest) =>
      match rest with
      | [] => some (sc.1 * q)
      | 'e' :: t => applyExp sc.1 q t
      | 'E' :: t => applyExp sc.1 q t
      | _ => none

/-- Function `parse_brl_money` (string input path). -/
def parse_brl_money (value : String) : Option ℚ :=
  let s := pyStripL value.data
  if s.isEmpty then none
  else if s.map Char.toLower == "nan".data || s.map Char.toLower == "none".data then none
  else
    let s1 := s.filter (fun c => !(c = ' ' || c = ' '))
    let s2 := removeSub2 'r' '$' (removeSub2 'R' '$' s1)
    let s3 := (s2.filter (fun c => c ≠ '.')).map (fun c => if c = ',' then '.' else c)
    parseDecQ s3

/-! ## Write-path field validators (`src/app.py` lines 683–752) -/

def digitChar (n : Nat) : Char := Char.ofNat (48 + n)

def decDigitsAux : Nat → Nat → List Char
  | 0, _ => []
  | fuel + 1, n => if n < 10 then [digitChar n] else decDigitsAux fuel (n / 10) ++ [digitChar (n % 10)]

/-- Decimal rendering of a natural number (`str(n)`). -/
def natStr (n : Nat) : String := String.mk (decDigitsAux (n + 1) n)

/-- Python `f"{n:02d}"`. -/
def fmt02 (n : Nat) : String := if n < 10 then "0" ++ natStr n else natStr n

/-- Python `%Y` rendering (zero-padded to four digits). -/
def fmt04 (n : Nat) : String :=
  String.mk (List.replicate (4 - (decDigitsAux (n + 1) n).length) '0') ++ natStr n

def isLeapYear (y : Nat) : Bool := y % 4 = 0 && (y % 100 ≠ 0 || y % 400 = 0)

def daysInMonth (y m : Nat) : Nat :=
  if m = 2 then (if isLeapYear y then 29 else 28)
  else if m = 4 || m = 6 || m = 9 || m = 11 then 30
  else 31

/-- Mask `_mask_date_ddmmyyyy` restricted to an 8-digit input. -/
def maskDate8 (d : List Char) : List Char :=
  d.take 2 ++ '/' :: (d.drop 2).take 2 ++ '/' :: (d.drop 4).take 4

/-- Function `_parse_date_ddmmyyyy`: strips, masks an 8-digit input, then
`datetime.strptime(s, "%d/%m/%Y")` (day/month of one or two digits, year of
up to four digits, proleptic-Gregorian validity).  Returns `(day, month,
year)`. -/
def _parse_date_ddmmyyyy (s : String) : Option (Nat × Nat × Nat) :=
  let t := pyStripL s.data
  if t.isEmpty then none
  else
    let t := if t.length = 8 && t.all Char.isDigit then maskDate8 t else t
    match t.splitOn '/' with
    | [ds, ms, ys] =>
      if !ds.isEmpty && ds.length ≤ 2 && ds.all Char.isDigit
          && !ms.isEmpty && ms.length ≤ 2 && ms.all Char.isDigit
          && !ys.isEmpty && ys.length ≤ 4 && ys.all Char.isDigit then
        let d := digitsToNat ds
        let m := digitsToNat ms
        let y := digitsToNat ys
        if 1 ≤ y && 1 ≤ m && m ≤ 12 && 1 ≤ d && d ≤ daysInMonth y m then some (d, m, y)
        else none
      else none
    | _ => none

/-- Function `_parse_time_hhmm`: strips, masks a 4-digit input, requires
`re.fullmatch(r"\d{2}:\d{2}", s)` and a valid 24-hour time.  Returns the
time as minutes since midnight. -/
def _parse_time_hhmm (s : String) : Option Nat :=
  let t := pyStripL s.data
  if t.isEmpty then none
  else
    let t := if t.length = 4 && t.all Char.isDigit then t.take 2 ++ ':' :: t.drop 2 else t
    match t with
    | [h1, h2, ':', m1, m2] =>
      if h1.isDigit && h2.isDigit && m1.isDigit && m2.isDigit then
        let h := digitsToNat [h1, h2]
        let m := digitsToNat [m1, m2]
        if h ≤ 23 && m ≤ 59 then some (h * 60 + m) else none
      else none
    | _ => none

/-- Function `_duration_hhmm`: difference of the two times rendered as `HH:MM`,
or the corresponding error. -/
def _duration_hhmm (inicio termino : String) : Except String String :=
  match _parse_time_hhmm inicio, _parse_time_hhmm termino with
  | some t1, some t2 =>
    if t2 < t1 then .error "Término não pode ser menor que Início."
    else .ok (fmt02 ((t2 - t1) / 60) ++ ":" ++ fmt02 ((t2 - t1) % 60))
  | _, _ => .error "Horário inválido para cálculo de duração."

/-! ## `read_sheet` (`src/app.py` lines 587–628)

The fetched grid (`ws.get_all_values()`) is the input; the result is the
header list and the normalised data rows of the produced `DataFrame`. -/

def rowIsEmpty (r : List String) : Bool := r.all (fun x => pyStripStr x == "")

/-- Row normalisation: take the first `n` cells and pad with empty strings. -/
def normRow (n : Nat) (r : List String) : List String :=
  r.take n ++ List.replicate (n - r.length) ""

def dropTrailEmptyStr : List String → List String
  | [] => []
  | c :: t =>
    match dropTrailEmptyStr t with
    | [] => if c = "" then [] else [c]
    | r => c :: r

def read_sheet (values : List (List String)) : List String × List (List String) :=
  if values.length < 2 then ([], [])
  else
    let headers := dropTrailEmptyStr ((values.headD []).map pyStripStr)
    let n := headers.length
    (headers,
      (values.drop 1).filterMap (fun r =>
        let r' := normRow n r
        if rowIsEmpty r' then none else some r'))

/-! ## `append_row_to_sheet` (`src/app.py` lines 86–137)

The worksheet is modelled by its grid extent (`ws.row_count`) and the list
of its materialised rows (row 1 is the header; trailing all-empty grid rows
may be absent from `rows`, exactly as `ws.get` omits them). -/

structure Worksheet where
  rowCount : Nat
  rows : List (List String)
deriving DecidableEq, Repr

/-- Header row read: each first-row value stripped. -/
def wsHeaders (ws : Worksheet) : List String := (ws.rows.headD []).map pyStripStr

/-- Dictionary lookup with empty-string default. -/
def lookupD (record : List (String × String)) (k : String) : String :=
  match record.lookup k with
  | some v => v
  | none => ""

/-- The new row, serialised positionally by the live header order. -/
def mkRow (headers : List String) (record : List (String × String)) : List String :=
  headers.map (fun h => lookupD record (pyStripStr h))

/-- Range read of the reference column: first-column cells of rows 2 up to the grid extent,
one `[]` (empty cell) or `[value]` per materialised row. -/
def colACells (ws : Worksheet) : List (List String) :=
  ((ws.rows.drop 1).take (ws.rowCount - 1)).map (fun r =>
    let c := r.headD ""
    if c = "" then [] else [c])

/-- The column-A list padded to exactly `row_count - 1` items. -/
def padColA (ws : Worksheet) : List (List String) :=
  let l := colACells ws
  l ++ List.replicate ((ws.rowCount - 1) - l.length) []

/-- Cell value: the stripped first entry when the cell is present, empty otherwise. -/
def cellAVal (cell : List String) : String :=
  match cell with
  | [] => ""
  | v :: _ => pyStripStr v

/-- The scan `for offset, cell in enumerate(col_a, start=2)` looking for the
first reference-column cell that trims to empty. -/
def firstEmptyFrom : List (List String) → Nat → Option Nat
  | [], _ => none
  | cell :: t, start => if cellAVal cell = "" then some start else firstEmptyFrom t (start + 1)

/-- Insertion `ws.insert_row(row, index=idx)` on the 1-based row list: subsequent rows
shift down. -/
def insertRowAt (rows : List (List String)) (idx : Nat) (row : List String) : List (List String) :=
  rows.take (idx - 1) ++ row :: rows.drop (idx - 1)

def append_row_to_sheet (ws : Worksheet) (record : List (String × String)) :
    Except String (List (List String)) :=
  let headers := wsHeaders ws
  if headers.isEmpty then .error "A aba não possui cabeçalho na primeira linha."
  else
    let row := mkRow headers record
    match firstEmptyFrom (padColA ws) 2 with
    | none => .ok (ws.rows ++ [row])
    | some idx => .ok (insertRowAt ws.rows idx row)

/-! ## `DataFrame`, period filter and multi-select filters
(`src/app.py` lines 940–1101)

`_data` (the `to_date_series` result) is carried per row as an optional
parsed date; pandas `NaT` is `none`, and `NaT.year == y` is `False`. -/

structure PDate where
  year : Int
  month : Int
deriving DecidableEq, Repr

structure RRow where
  cells : List String
  pdate : Option PDate
deriving DecidableEq, Repr

structure DataFrame where
  cols : List String
  rows : List RRow
deriving DecidableEq, Repr

def cellValue (cols : List String) (r : RRow) (c : String) : String :=
  match cols.findIdx? (fun x => x == c) with
  | some i => r.cells.getD i ""
  | none => ""

/-- Function `apply_multiselect` from `src/app.py` lines 1080–1083. -/
def apply_multiselect (df : DataFrame) (col : String) (selected : List String) : DataFrame :=
  if selected.isEmpty || !df.cols.contains col then df
  else { df with rows := df.rows.filter (fun r => selected.contains (cellValue df.cols r col)) }

inductive Period where
  | thisMonth
  | thisYear
  | custom (year month : Int)
deriving DecidableEq, Repr

/-- Comparison of the parsed-date year with an integer at one row (`False` on `NaT`). -/
def pdYearEq (od : Option PDate) (y : Int) : Bool :=
  match od with
  | some d => d.year == y
  | none => false

def pdMonthEq (od : Option PDate) (m : Int) : Bool :=
  match od with
  | some d => d.month == m
  | none => false

def periodPred (p : Period) (today : PDate) (od : Option PDate) : Bool :=
  match p with
  | .thisMonth => pdYearEq od today.year && pdMonthEq od today.month
  | .thisYear => pdYearEq od today.year
  | .custom y m => pdYearEq od y && pdMonthEq od m

/-- Flag `has_valid_dates`: whether any row has a parsable date. -/
def hasValidDates (df : DataFrame) : Bool := df.rows.any (fun r => r.pdate.isSome)

/-- The period-filter block (`if has_valid_dates: ... df_f = df_f[...]`). -/
def applyPeriodFilter (p : Period) (today : PDate) (df : DataFrame) : DataFrame :=
  if hasValidDates df then
    { df with rows := df.rows.filter (fun r => periodPred p today r.pdate) }
  else df

/-! ## KPI block (`src/app.py` lines 1106–1154) -/

def COL_DURACAO : String := "Duração"
def COL_VALOR_INST : String := "Valor da instalação"
def COL_CLIENTE : String := "Cliente"

def colValues (df : DataFrame) (c : String) : List String :=
  df.rows.map (fun r => cellValue df.cols r c)

def faturamento_total (df : DataFrame) : ℚ :=
  if df.cols.contains COL_VALOR_INST then
    ((colValues df COL_VALOR_INST).filterMap parse_brl_money).sum
  else 0

def total_minutes_sum (df : DataFrame) : ℚ :=
  if df.cols.contains COL_DURACAO then
    ((colValues df COL_DURACAO).filterMap _parse_duration_to_minutes).sum
  else 0

/-- Hours total: the minute sum over 60 when the sum is non-zero, else 0. -/
def horas_totais (df : DataFrame) : ℚ :=
  if total_minutes_sum df ≠ 0 then total_minutes_sum df / 60 else 0

/-- Value per hour: the monetary sum over the hour total when positive, else `none`. -/
def valor_por_hora (df : DataFrame) : Option ℚ :=
  if horas_totais df > 0 then some (faturamento_total df / horas_totais df) else none

/-- The canonical client names kept by the client-count KPI and the client
filter options: `map(cliente_base)`, `str.strip`, drop empty. -/
def keptClientNames (names : List String) : List String :=
  ((names.map cliente_base).map pyStripStr).filter (fun c => c ≠ "")

/-! ## The `salvar` handler (`src/app.py` lines 850–925) -/

structure Form where
  data_txt : String
  inicio_txt : String
  termino_txt : String
  modalidade : String
  consultor : String
  tecnicos : List String
  status : String
  uf_txt : String
  cidade_txt : String
  cliente_txt : String
  cv_txt : String
  cv_inst_txt : String
  emissor_tipo : String
  emissor_cliente : String
  emissores_qtd : Nat
  player_tipo : String
  player_cliente : String
  players_qtd : Nat
  plano : String
  valor_txt : String
  motivo_reag : String
  observacao_txt : String

def msgDataInvalida : String := "Data inválida (use dd/mm/aaaa, ex.: 05/01/2026)."
def msgDataChars : String := "Data: use apenas números e \x27/\x27."
def msgInicioInvalido : String := "Início inválido (use HH:MM, ex.: 13:20)."
def msgTerminoInvalido : String := "Término inválido (use HH:MM, ex.: 15:10)."
def msgInicioChars : String := "Início: use apenas números e \x27:\x27."
def msgTerminoChars : String := "Término: use apenas números e \x27:\x27."
def msgUF : String := "UF inválida (use apenas 2 letras, ex.: SP)."
def msgValor : String := "Valor da instalação inválido (use números e vírgula, ex.: 500,00)."

/-- Region code cleanup: strip and upper-case. -/
def ufClean (s : String) : String := String.mk ((pyStripL s.data).map Char.toUpper)

/-- Matcher for a two-uppercase-letter region code. -/
def isUF2 (s : String) : Bool :=
  match s.data with
  | [a, b] => ('A' ≤ a && a ≤ 'Z') && ('A' ≤ b && b ≤ 'Z')
  | _ => false

/-- The error list built by the `salvar` handler before the duration
computation, in source order. -/
def baseErrors (f : Form) : List String :=
  (if (_parse_date_ddmmyyyy f.data_txt).isNone then [msgDataInvalida] else [])
  ++ (if pyStripStr f.data_txt != "" && !((pyStripStr f.data_txt).data.all (fun c => c.isDigit || c = '/'))
      then [msgDataChars] else [])
  ++ (if (_parse_time_hhmm (pyStripStr f.inicio_txt)).isNone then [msgInicioInvalido] else [])
  ++ (if (_parse_time_hhmm (pyStripStr f.termino_txt)).isNone then [msgTerminoInvalido] else [])
  ++ (if pyStripStr f.inicio_txt != "" && !((pyStripStr f.inicio_txt).data.all (fun c => c.isDigit || c = ':'))
      then [msgInicioChars] else [])
  ++ (if pyStripStr f.termino_txt != "" && !((pyStripStr f.termino_txt).data.all (fun c => c.isDigit || c = ':'))
      then [msgTerminoChars] else [])
  ++ (if !isUF2 (ufClean f.uf_txt) then [msgUF] else [])
  ++ (if pyStripStr f.valor_txt != "" && (parse_brl_money f.valor_txt).isNone then [msgValor] else [])

/-- All collected errors: the duration computation (and hence the
end-before-start check) runs only when `baseErrors` is empty. -/
def salvarErrors (f : Form) : List String :=
  let errs := baseErrors f
  if errs.isEmpty then
    match _duration_hhmm (pyStripStr f.inicio_txt) (pyStripStr f.termino_txt) with
    | .error m => [m]
    | .ok _ => []
  else errs

def duracaoCalc (f : Form) : String :=
  match _duration_hhmm (pyStripStr f.inicio_txt) (pyStripStr f.termino_txt) with
  | .ok d => d
  | .error _ => ""

def dataFmt (f : Form) : String :=
  match _parse_date_ddmmyyyy f.data_txt with
  | some (d, m, y) => fmt02 d ++ "/" ++ fmt02 m ++ "/" ++ fmt04 y
  | none => ""

def valuesByHeader (f : Form) : List (String × String) :=
  [("Data", dataFmt f),
   ("Início", pyStripStr f.inicio_txt),
   ("Término", pyStripStr f.termino_txt),
   ("Modalidade", f.modalidade),
   ("Consultor", f.consultor),
   ("Cliente", pyStripStr f.cliente_txt),
   ("Emissor de senhas", f.emissor_tipo),
   ("Emissor cliente", f.emissor_cliente),
   ("Emissores", natStr f.emissores_qtd),
   ("Quantidade Quiosque", natStr f.emissores_qtd),
   ("Player", f.player_tipo),
   ("Player cliente", f.player_cliente),
   ("Players", natStr f.players_qtd),
   ("Quantidade Players", natStr f.players_qtd),
   ("UF", ufClean f.uf_txt),
   ("Cidade", pyStripStr f.cidade_txt),
   ("Técnico", if f.tecnicos.isEmpty then "" else String.intercalate ", " f.tecnicos),
   ("Status", f.status),
   ("CV", pyStripStr f.cv_txt),
   ("Plano", f.plano),
   ("CV Instalação", pyStripStr f.cv_inst_txt),
   ("Valor da instalação", if pyStripStr f.valor_txt != "" then pyStripStr f.valor_txt else ""),
   ("Motivo reagendamento", if f.motivo_reag != "" then pyStripStr f.motivo_reag else ""),
   ("Observação", pyStripStr f.observacao_txt),
   ("Duração", duracaoCalc f)]

/-- The whole `salvar` branch: report the collected errors without touching
the sheet, or hand the record to `append_row_to_sheet` (whose transport
failure is caught and surfaced as a single message). -/
def salvar (f : Form) (ws : Worksheet) : Worksheet × List String :=
  let errs := salvarErrors f
  if !errs.isEmpty then (ws, errs)
  else
    match append_row_to_sheet ws (valuesByHeader f) with
    | .ok rows => ({ rowCount := ws.rowCount + 1, rows := rows }, [])
    | .error m => (ws, ["Não foi possível salvar na planilha: " ++ m])

/-! ## General helper lemmas -/

theorem lastC_cons_of_ne_nil (a : Char) {l : List Char} (h : l ≠ []) :
    lastC (a :: l) = lastC l := by
  cases l with
  | nil => exact absurd rfl h
  | cons b t => rfl

theorem lastC_append (l₁ : List Char) {l₂ : List Char} (h : l₂ ≠ []) :
    lastC (l₁ ++ l₂) = lastC l₂ := by
  induction l₁ with
  | nil => rfl
  | cons a t ih =>
    have ht : t ++ l₂ ≠ [] := by
      intro hc
      rcases List.append_eq_nil.mp hc with ⟨-, h2⟩
      exact h h2
    rw [List.cons_append, lastC_cons_of_ne_nil a ht, ih]

theorem lastC_mem : ∀ {l : List Char} {c : Char}, lastC l = some c → c ∈ l
  | [], _, h => by simp [lastC] at h
  | [a], c, h => by
    simp [lastC] at h
    simp [h]
  | a :: b :: t, c, h => by
    have : lastC (a :: b :: t) = lastC (b :: t) := rfl
    rw [this] at h
    exact List.mem_cons_of_mem a (lastC_mem h)

theorem lastC_isSome_of_ne_nil : ∀ {l : List Char}, l ≠ [] → ∃ c, lastC l = some c
  | [], h => absurd rfl h
  | [a], _ => ⟨a, rfl⟩
  | a :: b :: t, _ => by
    rcases lastC_isSome_of_ne_nil (l := b :: t) (by simp) with ⟨c, hc⟩
    exact ⟨c, by rw [lastC_cons_of_ne_nil a (by simp), hc]⟩

theorem lastC_dropWhile {p : Char → Bool} {l : List Char}
    (h : l.dropWhile p ≠ []) : lastC (l.dropWhile p) = lastC l := by
  conv_rhs => rw [← List.takeWhile_append_dropWhile (p := p) (l := l)]
  rw [lastC_append _ h]

theorem lastC_drop {l : List Char} {n : Nat}
    (h : l.drop n ≠ []) : lastC (l.drop n) = lastC l := by
  conv_rhs => rw [← List.take_append_drop n l]
  rw [lastC_append _ h]

theorem dropTrail_cons_nil {c : Char} {t : List Char} (hr : dropTrail t = []) :
    dropTrail (c :: t) = if pyWs c then [] else [c] := by
  unfold dropTrail
  rw [hr]

theorem dropTrail_cons_cons {c : Char} {t : List Char} {a : Char} {r : List Char}
    (hr : dropTrail t = a :: r) : dropTrail (c :: t) = c :: a :: r := by
  unfold dropTrail
  rw [hr]

theorem dropTrail_head? : ∀ {l : List Char}, dropTrail l ≠ [] →
    (dropTrail l).head? = l.head?
  | [], h => absurd rfl h
  | c :: t, h => by
    cases hr : dropTrail t with
    | nil =>
      rw [dropTrail_cons_nil hr] at h ⊢
      by_cases hw : pyWs c
      · rw [if_pos hw] at h
        exact absurd rfl h
      · rw [if_neg hw]
        rfl
    | cons a r =>
      rw [dropTrail_cons_cons hr]
      rfl

theorem dropTrail_last : ∀ {l : List Char}, dropTrail l ≠ [] →
    ∃ c, lastC (dropTrail l) = some c ∧ pyWs c = false
  | [], h => absurd rfl h
  | c :: t, h => by
    cases hr : dropTrail t with
    | nil =>
      rw [dropTrail_cons_nil hr] at h ⊢
      by_cases hw : pyWs c
      · rw [if_pos hw] at h
        exact absurd rfl h
      · refine ⟨c, ?_, by simpa using hw⟩
        rw [if_neg hw]
        rfl
    | cons a r =>
      rw [dropTrail_cons_cons hr]
      rcases dropTrail_last (l := t) (by rw [hr]; simp) with ⟨d, hd1, hd2⟩
      rw [hr] at hd1
      exact ⟨d, by rw [lastC_cons_of_ne_nil c (by simp), hd1], hd2⟩

theorem dropTrail_eq_self : ∀ {l : List Char},
    (∀ c, lastC l = some c → pyWs c = false) → dropTrail l = l
  | [], _ => rfl
  | [c], h => by
    have hc : pyWs c = false := h c rfl
    simp [dropTrail, hc]
  | a :: b :: t, h => by
    have ht : dropTrail (b :: t) = b :: t := by
      refine dropTrail_eq_self ?_
      intro c hc
      refine h c ?_
      rw [lastC_cons_of_ne_nil a (by simp), hc]
    unfold dropTrail
    rw [ht]

theorem dropWhile_head?_not {p : Char → Bool} :
    ∀ {l : List Char} {c : Char}, (l.dropWhile p).head? = some c → p c = false
  | [], c, h => by simp [List.dropWhile] at h
  | a :: t, c, h => by
    rw [List.dropWhile_cons] at h
    by_cases hp : p a
    · rw [if_pos hp] at h
      exact dropWhile_head?_not h
    · rw [if_neg hp] at h
      simp at h
      rw [← h]
      simpa using hp

theorem dropWhile_eq_self_of_head {p : Char → Bool} {l : List Char}
    (h : ∀ c, l.head? = some c → p c = false) : l.dropWhile p = l := by
  cases l with
  | nil => rfl
  | cons a t =>
    have := h a rfl
    rw [List.dropWhile_cons, if_neg (by simp [this])]

theorem pyStripL_idem (cs : List Char) : pyStripL (pyStripL cs) = pyStripL cs := by
  unfold pyStripL
  by_cases h : dropTrail ((cs.dropWhile pyWs)) = []
  · rw [h]
    rfl
  · have hdw : (dropTrail (cs.dropWhile pyWs)).dropWhile pyWs
        = dropTrail (cs.dropWhile pyWs) := by
      refine dropWhile_eq_self_of_head ?_
      intro c hc
      rw [dropTrail_head? h] at hc
      exact dropWhile_head?_not hc
    rw [hdw]
    refine dropTrail_eq_self ?_
    intro c hc
    rcases dropTrail_last h with ⟨d, hd1, hd2⟩
    rw [hd1] at hc
    cases hc
    exact hd2

theorem pyStripL_last {cs : List Char} (h : pyStripL cs ≠ []) :
    ∃ c, lastC (pyStripL cs) = some c ∧ pyWs c = false :=
  dropTrail_last h

theorem pyStripL_eq_self {cs : List Char}
    (hall : ∀ c ∈ cs, pyWs c = false) : pyStripL cs = cs := by
  unfold pyStripL
  have h1 : cs.dropWhile pyWs = cs := by
    refine dropWhile_eq_self_of_head ?_
    intro c hc
    exact hall c (by cases cs with
      | nil => simp at hc
      | cons a t => simp at hc; simp [hc])
  rw [h1]
  refine dropTrail_eq_self ?_
  intro c hc
  exact hall c (lastC_mem hc)

theorem takeWhile_append_not {α} {p : α → Bool} :
    ∀ {l : List α} {c : α} (r : List α),
      (∀ a ∈ l, p a = true) → p c = false → ((l ++ c :: r).takeWhile p) = l
  | [], c, r, _, hc => by simp [List.takeWhile_cons, hc]
  | a :: t, c, r, hl, hc => by
    have ha : p a = true := hl a (by simp)
    simp only [List.cons_append, List.takeWhile_cons, ha, if_true]
    rw [takeWhile_append_not r (fun x hx => hl x (by simp [hx])) hc]

theorem dropWhile_append_not {α} {p : α → Bool} :
    ∀ {l : List α} {c : α} (r : List α),
      (∀ a ∈ l, p a = true) → p c = false → ((l ++ c :: r).dropWhile p) = c :: r
  | [], c, r, _, hc => by simp [List.dropWhile_cons, hc]
  | a :: t, c, r, hl, hc => by
    have ha : p a = true := hl a (by simp)
    simp only [List.cons_append, List.dropWhile_cons, ha, if_true]
    exact dropWhile_append_not r (fun x hx => hl x (by simp [hx])) hc

theorem takeWhile_eq_self_of_all {α} {p : α → Bool} {l : List α}
    (h : ∀ a ∈ l, p a = true) : l.takeWhile p = l := by
  induction l with
  | nil => rfl
  | cons a t ih =>
    rw [List.takeWhile_cons, if_pos (h a (by simp)), ih (fun x hx => h x (by simp [hx]))]

theorem dropWhile_eq_nil_of_all {α} {p : α → Bool} {l : List α}
    (h : ∀ a ∈ l, p a = true) : l.dropWhile p = [] := by
  induction l with
  | nil => rfl
  | cons a t ih =>
    rw [List.dropWhile_cons, if_pos (h a (by simp))]
    exact ih (fun x hx => h x (by simp [hx]))

theorem isDigit_toNat_bounds {c : Char} (h : c.isDigit = true) :
    48 ≤ c.toNat ∧ c.toNat ≤ 57 := by
  simp [Char.isDigit] at h
  exact ⟨h.1, h.2⟩

theorem toLower_eq_of_isDigit {c : Char} (h : c.isDigit = true) : Char.toLower c = c := by
  have h2 := (isDigit_toNat_bounds h).2
  simp only [Char.toLower]
  rw [if_neg (by omega)]

theorem pyWs_toNat {c : Char} (h : pyWs c = true) :
    c.toNat = 32 ∨ c.toNat = 9 ∨ c.toNat = 10 ∨ c.toNat = 13 ∨
      c.toNat = 11 ∨ c.toNat = 12 ∨ c.toNat = 160 := by
  unfold pyWs at h
  simp only [Bool.or_eq_true, decide_eq_true_eq] at h
  rcases h with ((((((h1 | h1) | h1) | h1) | h1) | h1) | h1) <;> subst h1 <;> simp

theorem pyWs_false_of_isDigit {c : Char} (h : c.isDigit = true) : pyWs c = false := by
  rcases isDigit_toNat_bounds h with ⟨h1, h2⟩
  cases hp : pyWs c
  · rfl
  · rcases pyWs_toNat hp with hv | hv | hv | hv | hv | hv | hv <;> omega

theorem isDigit_false_of_pyWs {c : Char} (h : pyWs c = true) : c.isDigit = false := by
  cases hd : c.isDigit
  · rfl
  · rw [pyWs_false_of_isDigit hd] at h
    exact absurd h (by simp)

/-! ## Claim C9 -/

/-- C9: `_parse_duration_to_minutes` accepts the colon form `"1:99"` whose
minute field exceeds 59 and returns `60*1 + 99 = 159`, with no range
validation. -/
theorem duration_colon_accepts_minute_overflow :
    _parse_duration_to_minutes "1:99" = some 159 := by decide

/-! ## Claim C2 -/

theorem filterMap_if_empty {α β} (f : α → β) (p : β → Bool) (l : List α) :
    (l.filterMap fun r => if p (f r) = true then none else some (f r))
      = (l.map f).filter (fun r => !p r) := by
  induction l with
  | nil => rfl
  | cons a t ih =>
    by_cases hp : p (f a) = true
    · simp [List.filterMap_cons, hp, ih]
    · simp [List.filterMap_cons, hp, ih, Bool.eq_false_iff.mpr hp]

/-- C2: for a fetched grid with a header row and at least one data row, the
rows produced by `read_sheet` are exactly the non-empty data rows: each
source data row is padded/truncated to the header width, and kept iff some
cell does not trim to the empty string. -/
theorem read_sheet_rows_are_nonempty_rows (values : List (List String))
    (h : 2 ≤ values.length) :
    (read_sheet values).2
      = ((values.drop 1).map (normRow (read_sheet values).1.length)).filter
          (fun r => !rowIsEmpty r) := by
  unfold read_sheet
  rw [if_neg (by omega)]
  simp only
  exact filterMap_if_empty _ _ _

/-- Witness for C2: a grid whose two data rows are separated by one fully
blank row yields exactly the two data rows. -/
theorem read_sheet_rows_witness :
    2 ≤ ([["Data", "Cliente"], ["05/01/2026", "Acme"], ["", ""],
          ["06/01/2026", "Beta"]] : List (List String)).length
    ∧ (read_sheet [["Data", "Cliente"], ["05/01/2026", "Acme"], ["", ""],
          ["06/01/2026", "Beta"]]).2
        = [["05/01/2026", "Acme"], ["06/01/2026", "Beta"]] := by
  refine ⟨by decide, ?_⟩
  rw [read_sheet_rows_are_nonempty_rows _ (by decide)]
  decide

/-! ## Claim C1 -/

theorem firstEmptyFrom_eq_some :
    ∀ {l : List (List String)} {k : Nat} (start : Nat), k < l.length →
      cellAVal (l.getD k []) = "" →
      (∀ j, j < k → cellAVal (l.getD j []) ≠ "") →
      firstEmptyFrom l start = some (start + k)
  | [], k, start, hk, _, _ => by simp at hk
  | cell :: t, 0, start, _, he, _ => by
    simp only [List.getD_cons_zero] at he
    simp [firstEmptyFrom, he]
  | cell :: t, k + 1, start, hk, he, hocc => by
    have h0 : cellAVal cell ≠ "" := by
      have := hocc 0 (Nat.succ_pos k)
      simpa using this
    simp only [firstEmptyFrom, if_neg h0]
    have := firstEmptyFrom_eq_some (l := t) (k := k) (start + 1)
      (by simpa using Nat.lt_of_succ_lt_succ hk)
      (by simpa using he)
      (fun j hj => by
        have := hocc (j + 1) (Nat.succ_lt_succ hj)
        simpa using this)
    rw [this]
    congr 1
    omega

theorem firstEmptyFrom_eq_none :
    ∀ {l : List (List String)} (start : Nat),
      (∀ k, k < l.length → cellAVal (l.getD k []) ≠ "") →
      firstEmptyFrom l start = none
  | [], _, _ => rfl
  | cell :: t, start, h => by
    have h0 : cellAVal cell ≠ "" := by simpa using h 0 (by simp)
    simp only [firstEmptyFrom, if_neg h0]
    exact firstEmptyFrom_eq_none (start + 1) (fun k hk => by
      have := h (k + 1) (by simpa using Nat.succ_lt_succ hk)
      simpa using this)

/-- C1: writing a record scans the padded reference column (rows 2 up to the
known extent).  If position `k` (row `2+k`) is the first whose cell trims to
empty, the row is inserted there, shifting subsequent rows down; if every
cell in the extent is occupied, the row is appended after the last row. -/
theorem append_row_first_gap (ws : Worksheet) (record : List (String × String))
    (hh : (wsHeaders ws).isEmpty = false) :
    (∀ k, k < (padColA ws).length →
        cellAVal ((padColA ws).getD k []) = "" →
        (∀ j, j < k → cellAVal ((padColA ws).getD j []) ≠ "") →
        append_row_to_sheet ws record
          = .ok (insertRowAt ws.rows (2 + k) (mkRow (wsHeaders ws) record)))
    ∧ ((∀ k, k < (padColA ws).length → cellAVal ((padColA ws).getD k []) ≠ "") →
        append_row_to_sheet ws record = .ok (ws.rows ++ [mkRow (wsHeaders ws) record])) := by
  constructor
  · intro k hk he hocc
    unfold append_row_to_sheet
    simp only [hh, Bool.false_eq_true, if_false]
    rw [firstEmptyFrom_eq_some 2 hk he hocc]
  · intro hocc
    unfold append_row_to_sheet
    simp only [hh, Bool.false_eq_true, if_false]
    rw [firstEmptyFrom_eq_none 2 hocc]

/-- Witness for C1: rows 2–4 of the reference column are filled and row 5
(the first padded gap, `k = 3`) is blank, so the record lands in row 5; and
in a fully occupied sheet the record is appended after the last row. -/
theorem append_row_first_gap_witness :
    append_row_to_sheet ⟨6, [["Data", "Cliente"], ["d2", "a"], ["d3", "b"], ["d4", "c"]]⟩
        [("Data", "d5"), ("Cliente", "e")]
      = .ok [["Data", "Cliente"], ["d2", "a"], ["d3", "b"], ["d4", "c"], ["d5", "e"]]
    ∧ append_row_to_sheet ⟨4, [["Data"], ["d2"], ["d3"], ["d4"]]⟩ [("Data", "d5")]
      = .ok [["Data"], ["d2"], ["d3"], ["d4"], ["d5"]] := by
  constructor
  · rw [(append_row_first_gap ⟨6, [["Data", "Cliente"], ["d2", "a"], ["d3", "b"], ["d4", "c"]]⟩
        [("Data", "d5"), ("Cliente", "e")] (by decide)).1 3 (by decide) (by decide)
        (by decide)]
    rfl
  · rw [(append_row_first_gap ⟨4, [["Data"], ["d2"], ["d3"], ["d4"]]⟩
        [("Data", "d5")] (by decide)).2 (by decide)]
    rfl


/-! ## Claim C5 -/

theorem pdYearEq_isSome {od : Option PDate} {y : Int} (h : pdYearEq od y = true) :
    od.isSome = true := by
  cases od with
  | none => simp [pdYearEq] at h
  | some d => rfl

theorem periodPred_isSome {p : Period} {today : PDate} {od : Option PDate}
    (h : periodPred p today od = true) : od.isSome = true := by
  cases p with
  | thisMonth =>
    simp only [periodPred, Bool.and_eq_true] at h
    exact pdYearEq_isSome h.1
  | thisYear => exact pdYearEq_isSome h
  | custom y m =>
    simp only [periodPred, Bool.and_eq_true] at h
    exact pdYearEq_isSome h.1

/-- C5 as stated is false on the code: the period block only runs under
`if has_valid_dates:`.  In a Dataset where no row has a parsable date, an
active `ThisMonth` filter is skipped entirely and the row whose date did
not parse is retained. -/
theorem period_filter_keeps_unparsable_counterexample :
    (applyPeriodFilter Period.thisMonth ⟨2026, 10⟩
        ⟨["Data"], [⟨["xx"], none⟩]⟩).rows = [⟨["xx"], none⟩]
    ∧ (⟨["xx"], none⟩ : RRow).pdate.isSome = false := ⟨rfl, rfl⟩

/-- C5 (amended): provided at least one row of the Dataset has a parsable
date (`has_valid_dates`), every row surviving any active period filter
(`ThisMonth`, `ThisYear` or `Custom`) has a parsable date; rows with no
parsable date are excluded. -/
theorem period_filter_excludes_unparsable (df : DataFrame) (p : Period) (today : PDate)
    (hvd : hasValidDates df = true) :
    ∀ r ∈ (applyPeriodFilter p today df).rows, r.pdate.isSome = true := by
  intro r hr
  unfold applyPeriodFilter at hr
  rw [if_pos hvd] at hr
  simp only [List.mem_filter] at hr
  exact periodPred_isSome hr.2

/-- Witness for C5 (amended): a two-row Dataset with one parsable and one
unparsable date; the row surviving the `ThisMonth` filter has a parsable
date. -/
theorem period_filter_excludes_unparsable_witness :
    (⟨["05/10/2026"], some ⟨2026, 10⟩⟩ : RRow).pdate.isSome = true :=
  period_filter_excludes_unparsable
    ⟨["Data"], [⟨["05/10/2026"], some ⟨2026, 10⟩⟩, ⟨["xx"], none⟩]⟩
    Period.thisMonth ⟨2026, 10⟩ (by decide)
    ⟨["05/10/2026"], some ⟨2026, 10⟩⟩ (by decide)

/-! ## Claim C7 -/

theorem filter_and_comm {α} (p q : α → Bool) (l : List α) :
    l.filter (fun a => p a && q a) = l.filter (fun a => q a && p a) := by
  have h : (fun a => p a && q a) = (fun a => q a && p a) :=
    funext (fun a => Bool.and_comm (p a) (q a))
  rw [h]

theorem apply_multiselect_cols (df : DataFrame) (c : String) (s : List String) :
    (apply_multiselect df c s).cols = df.cols := by
  unfold apply_multiselect
  by_cases h : (s.isEmpty || !df.cols.contains c) = true
  · rw [if_pos h]
  · rw [if_neg h]

theorem apply_multiselect_id (df : DataFrame) (c : String) (s : List String)
    (h : (s.isEmpty || !df.cols.contains c) = true) :
    apply_multiselect df c s = df := by
  unfold apply_multiselect
  rw [if_pos h]

theorem apply_multiselect_filter_eq (df : DataFrame) (c : String) (s : List String)
    (h : (s.isEmpty || !df.cols.contains c) = false) :
    apply_multiselect df c s
      = { df with rows := df.rows.filter (fun r => s.contains (cellValue df.cols r c)) } := by
  unfold apply_multiselect
  rw [h]
  simp

/-- C7 (categorical part): applying the two multi-select filters in either
order yields the same Dataset. -/
theorem apply_multiselect_comm (df : DataFrame) (c1 c2 : String) (s1 s2 : List String) :
    apply_multiselect (apply_multiselect df c1 s1) c2 s2
      = apply_multiselect (apply_multiselect df c2 s2) c1 s1 := by
  by_cases h1 : (s1.isEmpty || !df.cols.contains c1) = true
  · rw [apply_multiselect_id df c1 s1 h1,
      apply_multiselect_id (apply_multiselect df c2 s2) c1 s1
        (by rwa [apply_multiselect_cols])]
  · have h1' : (s1.isEmpty || !df.cols.contains c1) = false := by
      cases hx : (s1.isEmpty || !df.cols.contains c1)
      · rfl
      · exact absurd hx h1
    by_cases h2 : (s2.isEmpty || !df.cols.contains c2) = true
    · rw [apply_multiselect_id df c2 s2 h2,
        apply_multiselect_id (apply_multiselect df c1 s1) c2 s2
          (by rwa [apply_multiselect_cols])]
    · have h2' : (s2.isEmpty || !df.cols.contains c2) = false := by
        cases hx : (s2.isEmpty || !df.cols.contains c2)
        · rfl
        · exact absurd hx h2
      rw [apply_multiselect_filter_eq df c1 s1 h1',
        apply_multiselect_filter_eq df c2 s2 h2',
        apply_multiselect_filter_eq
          ({ df with rows := df.rows.filter (fun r => s1.contains (cellValue df.cols r c1)) })
          c2 s2 h2',
        apply_multiselect_filter_eq
          ({ df with rows := df.rows.filter (fun r => s2.contains (cellValue df.cols r c2)) })
          c1 s1 h1']
      simp only [List.filter_filter]
      congr 1
      exact filter_and_comm _ _ _

/-- C7 (period part, helper): the period-filter block commutes for any two
period selectors. -/
theorem applyPeriodFilter_comm (df : DataFrame) (p q : Period) (today : PDate) :
    applyPeriodFilter p today (applyPeriodFilter q today df)
      = applyPeriodFilter q today (applyPeriodFilter p today df) := by
  by_cases hv : hasValidDates df = true
  · have step : ∀ u v : Period,
        applyPeriodFilter u today (applyPeriodFilter v today df)
          = ⟨df.cols, (df.rows.filter (fun r => periodPred v today r.pdate)).filter
              (fun r => periodPred u today r.pdate)⟩ := by
      intro u v
      have hinner : applyPeriodFilter v today df
          = ⟨df.cols, df.rows.filter (fun r => periodPred v today r.pdate)⟩ := by
        unfold applyPeriodFilter
        rw [if_pos hv]
      rw [hinner]
      cases hvq : df.rows.filter (fun r => periodPred v today r.pdate) with
      | nil =>
        unfold applyPeriodFilter
        rw [show hasValidDates (⟨df.cols, []⟩ : DataFrame) = false from rfl]
        simp
      | cons r t =>
        have hval : hasValidDates (⟨df.cols, r :: t⟩ : DataFrame) = true := by
          have hr : r ∈ df.rows.filter (fun x => periodPred v today x.pdate) := by
            rw [hvq]
            exact List.mem_cons_self r t
          rw [List.mem_filter] at hr
          simp only [hasValidDates, List.any_cons, Bool.or_eq_true]
          exact Or.inl (periodPred_isSome hr.2)
        unfold applyPeriodFilter
        rw [if_pos hval]
    rw [step p q, step q p]
    simp only [List.filter_filter]
    congr 1
    exact filter_and_comm _ _ _
  · have hv' : hasValidDates df = false := by
      cases hx : hasValidDates df
      · rfl
      · exact absurd hx hv
    have hid : ∀ u : Period, applyPeriodFilter u today df = df := by
      intro u
      unfold applyPeriodFilter
      rw [hv']
      simp
    rw [hid q, hid p, hid q]

/-- C7: filter application commutes — the two categorical multi-select
filters applied in either order agree, and the `ThisMonth` and `ThisYear`
period filters applied in sequence agree in either order. -/
theorem filter_application_commutes (df : DataFrame) (c1 c2 : String)
    (s1 s2 : List String) (today : PDate) :
    apply_multiselect (apply_multiselect df c1 s1) c2 s2
        = apply_multiselect (apply_multiselect df c2 s2) c1 s1
    ∧ applyPeriodFilter Period.thisMonth today (applyPeriodFilter Period.thisYear today df)
        = applyPeriodFilter Period.thisYear today (applyPeriodFilter Period.thisMonth today df) :=
  ⟨apply_multiselect_comm df c1 c2 s1 s2,
   applyPeriodFilter_comm df Period.thisMonth Period.thisYear today⟩

/-! ## Claim C8 -/

/-- C8: the value-per-hour KPI equals the monetary sum divided by the hour
total whenever the hour denominator is positive, and is `None` (a dash, not
`0`) whenever the denominator is zero — in particular when the duration
column is absent or no duration value parses. -/
theorem valor_por_hora_spec (df : DataFrame) :
    (0 < total_minutes_sum df / 60 →
        valor_por_hora df = some (faturamento_total df / (total_minutes_sum df / 60)))
    ∧ (total_minutes_sum df / 60 = 0 → valor_por_hora df = none)
    ∧ (df.cols.contains COL_DURACAO = false → valor_por_hora df = none)
    ∧ ((colValues df COL_DURACAO).filterMap _parse_duration_to_minutes = [] →
        valor_por_hora df = none) := by
  have hz : total_minutes_sum df / 60 = 0 → valor_por_hora df = none := by
    intro h0
    have ht : total_minutes_sum df = 0 := by
      rcases div_eq_zero_iff.mp h0 with h | h
      · exact h
      · norm_num at h
    unfold valor_por_hora horas_totais
    rw [if_neg (by simp [ht])]
  refine ⟨?_, hz, ?_, ?_⟩
  · intro hpos
    have ht : total_minutes_sum df ≠ 0 := by
      intro h0
      rw [h0] at hpos
      norm_num at hpos
    have hht : horas_totais df = total_minutes_sum df / 60 := by
      unfold horas_totais
      rw [if_pos ht]
    unfold valor_por_hora
    rw [hht, if_pos hpos]
  · intro hc
    refine hz ?_
    unfold total_minutes_sum
    rw [hc]
    norm_num
  · intro hc
    refine hz ?_
    unfold total_minutes_sum
    by_cases hcol : df.cols.contains COL_DURACAO = true
    · rw [if_pos hcol, hc]
      norm_num
    · rw [if_neg hcol]
      norm_num

/-- Witness for C8: on a Dataset with `Duração = "1:30"` (1.5 h) and
`Valor da instalação = "300"` the ratio is `300 / 1.5 = 200`; on a Dataset
without the duration column the ratio is `None`. -/
theorem valor_por_hora_witness :
    valor_por_hora ⟨[COL_DURACAO, COL_VALOR_INST], [⟨["1:30", "300"], none⟩]⟩ = some 200
    ∧ valor_por_hora ⟨[COL_VALOR_INST], [⟨["300"], none⟩]⟩ = none := by
  have htot : total_minutes_sum ⟨[COL_DURACAO, COL_VALOR_INST], [⟨["1:30", "300"], none⟩]⟩
      = 90 := by
    have h1 : (colValues ⟨[COL_DURACAO, COL_VALOR_INST], [⟨["1:30", "300"], none⟩]⟩
        COL_DURACAO).filterMap _parse_duration_to_minutes = [((90 : ℕ) : ℚ)] := rfl
    unfold total_minutes_sum
    rw [if_pos (by decide), h1]
    norm_num
  have hfat : faturamento_total ⟨[COL_DURACAO, COL_VALOR_INST], [⟨["1:30", "300"], none⟩]⟩
      = 300 := by
    have h1 : (colValues ⟨[COL_DURACAO, COL_VALOR_INST], [⟨["1:30", "300"], none⟩]⟩
        COL_VALOR_INST).filterMap parse_brl_money = [(1 : ℚ) * (((300 : ℕ) : ℚ) + 0)] := rfl
    unfold faturamento_total
    rw [if_pos (by decide), h1]
    norm_num
  constructor
  · have h := (valor_por_hora_spec ⟨[COL_DURACAO, COL_VALOR_INST], [⟨["1:30", "300"], none⟩]⟩).1
      (by rw [htot]; norm_num)
    rw [h, htot, hfat]
    norm_num
  · exact (valor_por_hora_spec ⟨[COL_VALOR_INST], [⟨["300"], none⟩]⟩).2.2.1 (by decide)

/-! ## Claim C10 -/

theorem numSuffixMatch_of_digits {cs : List Char} (hne : cs ≠ [])
    (hdig : ∀ c ∈ cs, c.isDigit = true) : numSuffixMatch cs = true := by
  have hdw : cs.dropWhile pyWs = cs := by
    refine dropWhile_eq_self_of_head ?_
    intro c hc
    refine pyWs_false_of_isDigit (hdig c ?_)
    cases cs with
    | nil => simp at hc
    | cons a t =>
      simp only [List.head?_cons, Option.some.injEq] at hc
      simp [← hc]
  have htw : cs.takeWhile Char.isDigit = cs := takeWhile_eq_self_of_all hdig
  have hdd : cs.dropWhile Char.isDigit = [] := dropWhile_eq_nil_of_all hdig
  simp only [numSuffixMatch, tailNumMatch, hdw, htw, hdd]
  cases cs with
  | nil => exact absurd rfl hne
  | cons a t => simp

/-- C10: a client name consisting only of digits (possibly surrounded by
whitespace) canonicalises to the empty string — the trailing-number strip
removes the entire name — and therefore contributes nothing to the kept
canonical client names used by the client filter options and the
client-count KPI. -/
theorem cliente_base_all_digits_empty (x : String)
    (hne : pyStripL x.data ≠ [])
    (hdig : ∀ c ∈ pyStripL x.data, c.isDigit = true) :
    cliente_base x = ""
    ∧ ∀ names : List String, keptClientNames (x :: names) = keptClientNames names := by
  have hstrip : stripNumSuffix (pyStripL x.data) = [] := by
    cases hs : pyStripL x.data with
    | nil => exact absurd hs hne
    | cons c t =>
      unfold stripNumSuffix
      rw [if_pos (by rw [← hs]; exact numSuffixMatch_of_digits hne hdig)]
  have hcb : cliente_base x = "" := by
    simp only [cliente_base, clienteBaseL]
    rw [if_neg (by simp only [List.isEmpty_iff]; exact hne), hstrip]
    rfl
  refine ⟨hcb, ?_⟩
  intro names
  simp only [keptClientNames, List.map_cons, hcb, List.filter_cons]
  rw [show pyStripStr "" = "" from rfl]
  simp

/-- Witness for C10: the digits-only client name `" 123 "` canonicalises to
`""` and is dropped from the kept client names. -/
theorem cliente_base_all_digits_empty_witness :
    cliente_base " 123 " = ""
    ∧ keptClientNames [" 123 ", "Acme 01"] = keptClientNames ["Acme 01"] := by
  have h := cliente_base_all_digits_empty " 123 " (by decide) (by decide)
  exact ⟨h.1, h.2 ["Acme 01"]⟩

/-! ## Claim C4 -/

theorem map_toLower_eq_self {cs : List Char} (h : ∀ c ∈ cs, Char.toLower c = c) :
    cs.map Char.toLower = cs := by
  induction cs with
  | nil => rfl
  | cons a t ih => simp [h a (by simp), ih (fun x hx => h x (by simp [hx]))]

theorem parse_duration_of_colon {cs : List Char} {h m : Nat} {osec : Option Nat}
    (hws : ∀ c ∈ cs, pyWs c = false) (hlow : cs.map Char.toLower = cs)
    (hcs : colonSplit cs = some (h, m, osec)) :
    _parse_duration_to_minutes (String.mk cs)
      = some (((h * 60 + m : ℕ) : ℚ)
          + Option.elim osec 0 (fun sec => (sec : ℚ) / 60)) := by
  have hne : cs ≠ [] := by
    intro he
    rw [he] at hcs
    simp [colonSplit] at hcs
  have hdata : (String.mk cs).data = cs := rfl
  simp only [_parse_duration_to_minutes, hdata, pyStripL_eq_self hws, hlow]
  rw [if_neg (by simp only [List.isEmpty_iff]; exact hne)]
  cases osec with
  | none =>
    rw [hcs]
    norm_num
  | some sec =>
    rw [hcs]
    norm_num

theorem colonSplit_hhmm (hd : List Char) (m1 m2 : Char)
    (hlen : hd.length = 1 ∨ hd.length = 2) (hhd : ∀ c ∈ hd, c.isDigit = true)
    (h1 : m1.isDigit = true) (h2 : m2.isDigit = true) :
    colonSplit (hd ++ ':' :: [m1, m2])
      = some (digitsToNat hd, digitsToNat [m1, m2], none) := by
  have htw : (hd ++ ':' :: [m1, m2]).takeWhile Char.isDigit = hd :=
    takeWhile_append_not _ hhd (by decide)
  have hdw : (hd ++ ':' :: [m1, m2]).dropWhile Char.isDigit = ':' :: [m1, m2] :=
    dropWhile_append_not _ hhd (by decide)
  simp only [colonSplit, htw, hdw]
  rw [if_pos hlen]
  simp [h1, h2]

theorem colonSplit_hhmmss (hd : List Char) (m1 m2 s1 s2 : Char)
    (hlen : hd.length = 1 ∨ hd.length = 2) (hhd : ∀ c ∈ hd, c.isDigit = true)
    (h1 : m1.isDigit = true) (h2 : m2.isDigit = true)
    (h3 : s1.isDigit = true) (h4 : s2.isDigit = true) :
    colonSplit (hd ++ ':' :: m1 :: m2 :: ':' :: [s1, s2])
      = some (digitsToNat hd, digitsToNat [m1, m2], some (digitsToNat [s1, s2])) := by
  have htw : (hd ++ ':' :: m1 :: m2 :: ':' :: [s1, s2]).takeWhile Char.isDigit = hd :=
    takeWhile_append_not _ hhd (by decide)
  have hdw : (hd ++ ':' :: m1 :: m2 :: ':' :: [s1, s2]).dropWhile Char.isDigit
      = ':' :: m1 :: m2 :: ':' :: [s1, s2] :=
    dropWhile_append_not _ hhd (by decide)
  simp only [colonSplit, htw, hdw]
  rw [if_pos hlen]
  simp [h1, h2, h3, h4]

theorem digitsToNat_pair (a b : Char) :
    digitsToNat [a, b] = 10 * digitVal a + digitVal b := by
  simp only [digitsToNat, List.foldl]
  omega

/-- C4: for every valid `HH:MM` string (one or two hour digits, two minute
digits) `_parse_duration_to_minutes` returns exactly `60*H + M` minutes,
and for `HH:MM:SS` exactly `60*H + M + SS/60`. -/
theorem hhmm_parses_exactly (hd : List Char) (m1 m2 : Char)
    (hlen : hd.length = 1 ∨ hd.length = 2) (hhd : ∀ c ∈ hd, c.isDigit = true)
    (h1 : m1.isDigit = true) (h2 : m2.isDigit = true) :
    _parse_duration_to_minutes (String.mk (hd ++ ':' :: [m1, m2]))
        = some (60 * (digitsToNat hd : ℚ) + (10 * (digitVal m1 : ℚ) + digitVal m2))
    ∧ ∀ s1 s2 : Char, s1.isDigit = true → s2.isDigit = true →
      _parse_duration_to_minutes (String.mk (hd ++ ':' :: m1 :: m2 :: ':' :: [s1, s2]))
        = some (60 * (digitsToNat hd : ℚ) + (10 * (digitVal m1 : ℚ) + digitVal m2)
            + (10 * (digitVal s1 : ℚ) + digitVal s2) / 60) := by
  constructor
  · have hws : ∀ c ∈ hd ++ ':' :: [m1, m2], pyWs c = false := by
      intro c hc
      simp only [List.mem_append, List.mem_cons, List.not_mem_nil, or_false] at hc
      rcases hc with h | h | h | h
      · exact pyWs_false_of_isDigit (hhd c h)
      · subst h; decide
      · subst h; exact pyWs_false_of_isDigit h1
      · subst h; exact pyWs_false_of_isDigit h2
    have hlow : (hd ++ ':' :: [m1, m2]).map Char.toLower = hd ++ ':' :: [m1, m2] := by
      refine map_toLower_eq_self ?_
      intro c hc
      simp only [List.mem_append, List.mem_cons, List.not_mem_nil, or_false] at hc
      rcases hc with h | h | h | h
      · exact toLower_eq_of_isDigit (hhd c h)
      · subst h; decide
      · subst h; exact toLower_eq_of_isDigit h1
      · subst h; exact toLower_eq_of_isDigit h2
    rw [parse_duration_of_colon hws hlow (colonSplit_hhmm hd m1 m2 hlen hhd h1 h2),
      digitsToNat_pair]
    simp only [Option.elim]
    congr 1
    push_cast
    ring
  · intro s1 s2 h3 h4
    have hws : ∀ c ∈ hd ++ ':' :: m1 :: m2 :: ':' :: [s1, s2], pyWs c = false := by
      intro c hc
      simp only [List.mem_append, List.mem_cons, List.not_mem_nil, or_false] at hc
      rcases hc with h | h | h | h | h | h | h
      · exact pyWs_false_of_isDigit (hhd c h)
      · subst h; decide
      · subst h; exact pyWs_false_of_isDigit h1
      · subst h; exact pyWs_false_of_isDigit h2
      · subst h; decide
      · subst h; exact pyWs_false_of_isDigit h3
      · subst h; exact pyWs_false_of_isDigit h4
    have hlow : (hd ++ ':' :: m1 :: m2 :: ':' :: [s1, s2]).map Char.toLower
        = hd ++ ':' :: m1 :: m2 :: ':' :: [s1, s2] := by
      refine map_toLower_eq_self ?_
      intro c hc
      simp only [List.mem_append, List.mem_cons, List.not_mem_nil, or_false] at hc
      rcases hc with h | h | h | h | h | h | h
      · exact toLower_eq_of_isDigit (hhd c h)
      · subst h; decide
      · subst h; exact toLower_eq_of_isDigit h1
      · subst h; exact toLower_eq_of_isDigit h2
      · subst h; decide
      · subst h; exact toLower_eq_of_isDigit h3
      · subst h; exact toLower_eq_of_isDigit h4
    rw [parse_duration_of_colon hws hlow
        (colonSplit_hhmmss hd m1 m2 s1 s2 hlen hhd h1 h2 h3 h4),
      digitsToNat_pair, digitsToNat_pair]
    simp only [Option.elim]
    congr 1
    push_cast
    ring

/-- Witness for C4: `"1:30"` parses to `90` minutes and `"01:30:30"` parses
to `90.5` minutes. -/
theorem hhmm_parses_exactly_witness :
    _parse_duration_to_minutes "1:30" = some 90
    ∧ _parse_duration_to_minutes "01:30:30" = some (181 / 2) := by
  constructor
  · have h := (hhmm_parses_exactly ['1'] '3' '0' (Or.inl rfl) (by decide)
      (by decide) (by decide)).1
    simp only [List.cons_append, List.nil_append] at h
    show _parse_duration_to_minutes (String.mk ['1', ':', '3', '0']) = some 90
    rw [h, show digitsToNat ['1'] = 1 from rfl, show digitVal '3' = 3 from rfl,
      show digitVal '0' = 0 from rfl]
    norm_num
  · have h := (hhmm_parses_exactly ['0', '1'] '3' '0' (Or.inr rfl) (by decide)
      (by decide) (by decide)).2 '3' '0' (by decide) (by decide)
    simp only [List.cons_append, List.nil_append] at h
    show _parse_duration_to_minutes
        (String.mk ['0', '1', ':', '3', '0', ':', '3', '0']) = some (181 / 2)
    rw [h, show digitsToNat ['0', '1'] = 1 from rfl, show digitVal '3' = 3 from rfl,
      show digitVal '0' = 0 from rfl]
    norm_num

/-! ## Claim C6 -/

theorem salvarErrors_of_base_ne {f : Form} (h : baseErrors f ≠ []) :
    salvarErrors f = baseErrors f := by
  simp only [salvarErrors]
  rw [if_neg (by simp only [List.isEmpty_iff]; exact h)]

/-- C6 as stated is false on the code: with an invalid UF and an end time
before the start time, only the UF failure is reported — the end-before-start
check runs only after all other validations pass, so the two failures are
not collected together. -/
theorem salvar_errors_counterexample :
    (_parse_time_hhmm "14:00" = some 840 ∧ _parse_time_hhmm "13:00" = some 780 ∧ 780 < 840)
    ∧ salvarErrors ⟨"05/01/2026", "14:00", "13:00", "Remota", "Shimada", [], "Concluído",
        "X", "", "", "", "", "Quiosque de chão", "FALSE", 0, "Stick Player", "FALSE", 0,
        "", "", "", ""⟩ = [msgUF]
    ∧ "Término não pode ser menor que Início." ∉
        salvarErrors ⟨"05/01/2026", "14:00", "13:00", "Remota", "Shimada", [], "Concluído",
          "X", "", "", "", "", "Quiosque de chão", "FALSE", 0, "Stick Player", "FALSE", 0,
          "", "", "", ""⟩ := by decide

/-- C6 (amended): the format validations (date, time formats, permitted
characters, UF, amount) are collected into a single list and reported
together; any failure leaves the sheet unchanged with no write attempted;
the end-before-start check runs only when those validations pass and its
failure alone then blocks the write; the write is attempted exactly when
the full error list is empty. -/
theorem salvar_validations (f : Form) (ws : Worksheet) :
    (salvarErrors f ≠ [] → salvar f ws = (ws, salvarErrors f))
    ∧ ((_parse_date_ddmmyyyy f.data_txt).isNone = true → msgDataInvalida ∈ salvarErrors f)
    ∧ ((_parse_time_hhmm (pyStripStr f.inicio_txt)).isNone = true →
        msgInicioInvalido ∈ salvarErrors f)
    ∧ ((_parse_time_hhmm (pyStripStr f.termino_txt)).isNone = true →
        msgTerminoInvalido ∈ salvarErrors f)
    ∧ (isUF2 (ufClean f.uf_txt) = false → msgUF ∈ salvarErrors f)
    ∧ (pyStripStr f.valor_txt ≠ "" → (parse_brl_money f.valor_txt).isNone = true →
        msgValor ∈ salvarErrors f)
    ∧ (∀ t1 t2, baseErrors f = [] →
        _parse_time_hhmm (pyStripStr f.inicio_txt) = some t1 →
        _parse_time_hhmm (pyStripStr f.termino_txt) = some t2 → t2 < t1 →
        salvarErrors f = ["Término não pode ser menor que Início."])
    ∧ (salvarErrors f = [] → ∀ rows,
        append_row_to_sheet ws (valuesByHeader f) = Except.ok rows →
        salvar f ws = (⟨ws.rowCount + 1, rows⟩, [])) := by
  have memBase : ∀ msg, msg ∈ baseErrors f → msg ∈ salvarErrors f := by
    intro msg hm
    rw [salvarErrors_of_base_ne (List.ne_nil_of_mem hm)]
    exact hm
  have isEmpty_false : ∀ {l : List String}, l ≠ [] → l.isEmpty = false := by
    intro l h
    cases l with
    | nil => exact absurd rfl h
    | cons a t => rfl
  refine ⟨?_, ?_, ?_, ?_, ?_, ?_, ?_, ?_⟩
  · intro hne
    simp only [salvar]
    rw [if_pos (by rw [isEmpty_false hne]; rfl)]
  · intro hd
    refine memBase _ ?_
    simp [baseErrors, hd]
  · intro hd
    refine memBase _ ?_
    simp [baseErrors, hd]
  · intro hd
    refine memBase _ ?_
    simp [baseErrors, hd]
  · intro hd
    refine memBase _ ?_
    simp [baseErrors, hd]
  · intro hv hd
    refine memBase _ ?_
    simp [baseErrors, hv, hd]
  · intro t1 t2 hb hp1 hp2 hlt
    have hdur : _duration_hhmm (pyStripStr f.inicio_txt) (pyStripStr f.termino_txt)
        = Except.error "Término não pode ser menor que Início." := by
      unfold _duration_hhmm
      rw [hp1, hp2]
      dsimp only
      rw [if_pos hlt]
    simp only [salvarErrors]
    rw [hb]
    simp only [List.isEmpty_nil, if_true]
    rw [hdur]
  · intro he rows hrows
    simp only [salvar]
    rw [he]
    simp only [List.isEmpty_nil, Bool.not_true, Bool.false_eq_true, if_false]
    rw [hrows]

/-- Witness for C6 (amended): a form with only an invalid UF collects the UF
message and leaves the worksheet untouched. -/
theorem salvar_validations_witness :
    msgUF ∈ salvarErrors ⟨"05/01/2026", "13:00", "14:30", "Remota", "Shimada", [],
        "Concluído", "X", "", "", "", "", "Quiosque de chão", "FALSE", 0, "Stick Player",
        "FALSE", 0, "", "", "", ""⟩
    ∧ salvar ⟨"05/01/2026", "13:00", "14:30", "Remota", "Shimada", [],
        "Concluído", "X", "", "", "", "", "Quiosque de chão", "FALSE", 0, "Stick Player",
        "FALSE", 0, "", "", "", ""⟩ ⟨3, [["Data"], ["d2"]]⟩
      = (⟨3, [["Data"], ["d2"]]⟩,
          salvarErrors ⟨"05/01/2026", "13:00", "14:30", "Remota", "Shimada", [],
            "Concluído", "X", "", "", "", "", "Quiosque de chão", "FALSE", 0, "Stick Player",
            "FALSE", 0, "", "", "", ""⟩) :=
  ⟨(salvar_validations ⟨"05/01/2026", "13:00", "14:30", "Remota", "Shimada", [],
        "Concluído", "X", "", "", "", "", "Quiosque de chão", "FALSE", 0, "Stick Player",
        "FALSE", 0, "", "", "", ""⟩ ⟨3, [["Data"], ["d2"]]⟩).2.2.2.2.1 (by decide),
   (salvar_validations ⟨"05/01/2026", "13:00", "14:30", "Remota", "Shimada", [],
        "Concluído", "X", "", "", "", "", "Quiosque de chão", "FALSE", 0, "Stick Player",
        "FALSE", 0, "", "", "", ""⟩ ⟨3, [["Data"], ["d2"]]⟩).1 (by decide)⟩

/-! ## Claim C3 -/

theorem cwA_true_cons_ws {a : Char} {t : List Char} (hw : pyWs a = true) :
    collapseWsAux true (a :: t) = collapseWsAux true t := by
  conv_lhs => unfold collapseWsAux
  rw [if_pos hw, if_pos rfl]

theorem cwA_cons_not_ws (b : Bool) {a : Char} {t : List Char} (hw : pyWs a = false) :
    collapseWsAux b (a :: t) = a :: collapseWsAux false t := by
  conv_lhs => unfold collapseWsAux
  rw [if_neg (by simp [hw])]

theorem cwA_false_ws_nil {a : Char} (hw : pyWs a = true) :
    collapseWsAux false [a] = [a] := by
  conv_lhs => unfold collapseWsAux
  rw [if_pos hw, if_neg (by simp)]

theorem cwA_false_ws_ws {a b : Char} {t : List Char}
    (hwa : pyWs a = true) (hwb : pyWs b = true) :
    collapseWsAux false (a :: b :: t) = ' ' :: collapseWsAux true (b :: t) := by
  conv_lhs => unfold collapseWsAux
  rw [if_pos hwa, if_neg (by simp)]
  dsimp only
  rw [if_pos hwb]

theorem cwA_false_ws_nws {a b : Char} {t : List Char}
    (hwa : pyWs a = true) (hwb : pyWs b = false) :
    collapseWsAux false (a :: b :: t) = a :: collapseWsAux false (b :: t) := by
  conv_lhs => unfold collapseWsAux
  rw [if_pos hwa, if_neg (by simp)]
  dsimp only
  rw [if_neg (by simp [hwb])]

theorem bool_eq_false_of_ne_true {b : Bool} (h : ¬b = true) : b = false := by
  cases hb : b
  · rfl
  · exact absurd hb h

theorem cwA_true_head : ∀ {t : List Char} {c : Char},
    (collapseWsAux true t).head? = some c → pyWs c = false
  | [], c, h => by simp [collapseWsAux] at h
  | a :: t, c, h => by
    by_cases hw : pyWs a = true
    · rw [cwA_true_cons_ws hw] at h
      exact cwA_true_head h
    · rw [cwA_cons_not_ws true (bool_eq_false_of_ne_true hw)] at h
      simp only [List.head?_cons, Option.some.injEq] at h
      rw [← h]
      exact bool_eq_false_of_ne_true hw

theorem noDW_cons {x : Char} {l : List Char}
    (h1 : ∀ y, l.head? = some y → ¬(pyWs x = true ∧ pyWs y = true))
    (h2 : noDW l) : noDW (x :: l) := by
  cases l with
  | nil => trivial
  | cons b t => exact ⟨h1 b rfl, h2⟩

theorem noDW_tail {x : Char} {l : List Char} (h : noDW (x :: l)) : noDW l := by
  cases l with
  | nil => trivial
  | cons b t => exact h.2

theorem noDW_cwA : ∀ (t : List Char) (b : Bool), noDW (collapseWsAux b t)
  | [], _ => trivial
  | a :: t, b => by
    by_cases hw : pyWs a = true
    · cases b with
      | true =>
        rw [cwA_true_cons_ws hw]
        exact noDW_cwA t true
      | false =>
        cases t with
        | nil =>
          rw [cwA_false_ws_nil hw]
          trivial
        | cons c t' =>
          by_cases hwc : pyWs c = true
          · rw [cwA_false_ws_ws hw hwc]
            refine noDW_cons ?_ (noDW_cwA (c :: t') true)
            intro y hy
            have := cwA_true_head hy
            simp [this]
          · rw [cwA_false_ws_nws hw (bool_eq_false_of_ne_true hwc)]
            refine noDW_cons ?_ (noDW_cwA (c :: t') false)
            intro y hy
            rw [cwA_cons_not_ws false (bool_eq_false_of_ne_true hwc)] at hy
            simp only [List.head?_cons, Option.some.injEq] at hy
            rw [← hy]
            simp [bool_eq_false_of_ne_true hwc]
    · rw [cwA_cons_not_ws b (bool_eq_false_of_ne_true hw)]
      refine noDW_cons ?_ (noDW_cwA t false)
      intro y hy
      simp [bool_eq_false_of_ne_true hw]

theorem cwA_false_eq_self : ∀ {l : List Char}, noDW l → collapseWsAux false l = l
  | [], _ => rfl
  | [a], _ => by
    by_cases hw : pyWs a = true
    · exact cwA_false_ws_nil hw
    · rw [cwA_cons_not_ws false (bool_eq_false_of_ne_true hw)]
      rfl
  | a :: b :: t, h => by
    have hpair : ¬(pyWs a = true ∧ pyWs b = true) := h.1
    have ht : noDW (b :: t) := h.2
    by_cases hw : pyWs a = true
    · have hwb : pyWs b = false := by
        cases hx : pyWs b
        · rfl
        · exact absurd ⟨hw, hx⟩ hpair
      rw [cwA_false_ws_nws hw hwb, cwA_false_eq_self ht]
    · rw [cwA_cons_not_ws false (bool_eq_false_of_ne_true hw), cwA_false_eq_self ht]

theorem noDW_dropWhile {p : Char → Bool} : ∀ {l : List Char}, noDW l →
    noDW (l.dropWhile p)
  | [], _ => trivial
  | a :: t, h => by
    rw [List.dropWhile_cons]
    by_cases hp : p a = true
    · rw [if_pos hp]
      exact noDW_dropWhile (noDW_tail h)
    · rw [if_neg hp]
      exact h

theorem noDW_dropTrail : ∀ {l : List Char}, noDW l → noDW (dropTrail l)
  | [], _ => trivial
  | c :: t, h => by
    cases hr : dropTrail t with
    | nil =>
      rw [dropTrail_cons_nil hr]
      by_cases hw : pyWs c
      · rw [if_pos hw]
        trivial
      · rw [if_neg hw]
        trivial
    | cons a r =>
      rw [dropTrail_cons_cons hr]
      have hrec : noDW (a :: r) := by
        rw [← hr]
        exact noDW_dropTrail (noDW_tail h)
      refine noDW_cons ?_ hrec
      intro y hy
      simp only [List.head?_cons, Option.some.injEq] at hy
      have hh : (dropTrail t).head? = t.head? := dropTrail_head? (by rw [hr]; simp)
      rw [hr] at hh
      cases t with
      | nil => simp [dropTrail] at hr
      | cons b t'' =>
        simp only [List.head?_cons, Option.some.injEq] at hh
        rw [← hy, hh]
        exact h.1

theorem noDW_pyStripL {cs : List Char} (h : noDW cs) : noDW (pyStripL cs) :=
  noDW_dropTrail (noDW_dropWhile h)

theorem takeWhile_ne_nil_imp {p : Char → Bool} {l : List Char}
    (h : l.takeWhile p ≠ []) : l ≠ [] := by
  intro he
  rw [he] at h
  exact h rfl

theorem tailNumMatch_last {z : List Char} (h : tailNumMatch z = true) :
    ∃ c, lastC z = some c ∧ (pyWs c = true ∨ c.isDigit = true) := by
  simp only [tailNumMatch, Bool.and_eq_true, Bool.not_eq_true', List.isEmpty_iff,
    List.all_eq_true] at h
  obtain ⟨hd0, he⟩ := h
  have hd : (z.dropWhile pyWs).takeWhile Char.isDigit ≠ [] := by
    intro hz
    rw [hz] at hd0
    simp at hd0
  have hw : z.dropWhile pyWs ≠ [] := takeWhile_ne_nil_imp hd
  rw [← lastC_dropWhile hw]
  cases hee : (z.dropWhile pyWs).dropWhile Char.isDigit with
  | nil =>
    have hsplit : z.dropWhile pyWs = (z.dropWhile pyWs).takeWhile Char.isDigit := by
      conv_lhs => rw [← List.takeWhile_append_dropWhile
        (p := Char.isDigit) (l := z.dropWhile pyWs)]
      rw [hee, List.append_nil]
    rcases lastC_isSome_of_ne_nil hw with ⟨c, hc⟩
    refine ⟨c, hc, Or.inr ?_⟩
    rw [hsplit] at hc
    exact List.mem_takeWhile_imp (lastC_mem hc)
  | cons e es =>
    have hsplit : z.dropWhile pyWs = (z.dropWhile pyWs).takeWhile Char.isDigit
        ++ (e :: es) := by
      conv_lhs => rw [← List.takeWhile_append_dropWhile
        (p := Char.isDigit) (l := z.dropWhile pyWs)]
      rw [hee]
    rcases lastC_isSome_of_ne_nil (l := e :: es) (by simp) with ⟨c, hc⟩
    refine ⟨c, ?_, Or.inl ?_⟩
    · rw [hsplit, lastC_append _ (by simp), hc]
    · refine he c ?_
      rw [hee]
      exact lastC_mem hc

theorem numSuffixMatch_last {cs : List Char} (h : numSuffixMatch cs = true) :
    ∃ c, lastC cs = some c ∧ (pyWs c = true ∨ c.isDigit = true) := by
  simp only [numSuffixMatch, Bool.or_eq_true, List.any_eq_true, Bool.and_eq_true] at h
  rcases h with h | ⟨sep, hsep, hpre, htm⟩
  · rcases tailNumMatch_last h with ⟨c, hc1, hc2⟩
    have hne : cs.dropWhile pyWs ≠ [] := by
      intro he
      rw [he] at hc1
      simp [lastC] at hc1
    rw [lastC_dropWhile hne] at hc1
    exact ⟨c, hc1, hc2⟩
  · rcases tailNumMatch_last htm with ⟨c, hc1, hc2⟩
    have hne2 : (cs.dropWhile pyWs).drop sep.length ≠ [] := by
      intro he
      rw [he] at hc1
      simp [lastC] at hc1
    rw [lastC_drop hne2] at hc1
    have hne : cs.dropWhile pyWs ≠ [] := by
      intro he
      rw [he] at hne2
      simp at hne2
    rw [lastC_dropWhile hne] at hc1
    exact ⟨c, hc1, hc2⟩

theorem stripNumSuffix_eq_self : ∀ {cs : List Char},
    (∀ i, numSuffixMatch (cs.drop i) = false) → stripNumSuffix cs = cs
  | [], _ => rfl
  | c :: t, h => by
    have h0 := h 0
    rw [List.drop_zero] at h0
    unfold stripNumSuffix
    rw [h0]
    simp only [Bool.false_eq_true, if_false]
    rw [stripNumSuffix_eq_self (fun i => by
      have hi := h (i + 1)
      rwa [List.drop_succ_cons] at hi)]

/-- The fixed-point core: a list that is stripped, has no double whitespace
and does not end in whitespace or a digit is unchanged by `clienteBaseL`. -/
theorem clienteBaseL_fix_aux {y : List Char}
    (hysp : pyStripL y = y) (hnod : noDW y)
    (hlast : ∀ c, lastC y = some c → pyWs c = false ∧ c.isDigit = false) :
    clienteBaseL y = y := by
  cases hye : y with
  | nil => rfl
  | cons a t =>
    rw [← hye]
    have hyne : y ≠ [] := by rw [hye]; simp
    have hsns : stripNumSuffix y = y := by
      refine stripNumSuffix_eq_self ?_
      intro i
      cases hmatch : numSuffixMatch (y.drop i) with
      | false => rfl
      | true =>
        exfalso
        rcases numSuffixMatch_last hmatch with ⟨c, hc1, hc2⟩
        have hdne : y.drop i ≠ [] := by
          intro he
          rw [he] at hc1
          simp [lastC] at hc1
        rw [lastC_drop hdne] at hc1
        rcases hlast c hc1 with ⟨hw, hd⟩
        rcases hc2 with h' | h'
        · rw [hw] at h'
          cases h'
        · rw [hd] at h'
          cases h'
    have hcw : collapseWs y = y := cwA_false_eq_self hnod
    unfold clienteBaseL
    rw [hysp, if_neg (by simp only [List.isEmpty_iff]; exact hyne), hsns]
    rw [hcw, hysp]

/-- C3 as stated is false on the code: the suffix-stripping substitution
removes only one trailing numeric group per application, so
`cliente_base "a 1 2" = "a 1"` while a second application gives `"a"`. -/
theorem cliente_base_not_idempotent :
    cliente_base (cliente_base "a 1 2") ≠ cliente_base "a 1 2" := by decide

/-- C3 (amended): `cliente_base` is idempotent on every input whose
canonical output does not end in a decimal digit; when the output does end
in a digit a second application may strip a further trailing numeric
group. -/
theorem cliente_base_idempotent_unless_digit (x : String)
    (h : endsInDigit (cliente_base x) = false) :
    cliente_base (cliente_base x) = cliente_base x := by
  show String.mk (clienteBaseL (clienteBaseL x.data)) = String.mk (clienteBaseL x.data)
  congr 1
  by_cases h0 : (pyStripL x.data).isEmpty = true
  · have h1 : clienteBaseL x.data = [] := by
      unfold clienteBaseL
      rw [if_pos h0]
    rw [h1]
    rfl
  · have h1 : clienteBaseL x.data
        = pyStripL (collapseWs (stripNumSuffix (pyStripL x.data))) := by
      unfold clienteBaseL
      rw [if_neg h0]
    refine clienteBaseL_fix_aux ?_ ?_ ?_
    · rw [h1]
      exact pyStripL_idem _
    · rw [h1]
      exact noDW_pyStripL (noDW_cwA _ false)
    · intro c hc
      constructor
      · by_cases hz : clienteBaseL x.data = []
        · rw [hz] at hc
          simp [lastC] at hc
        · rw [h1] at hc hz
          rcases pyStripL_last hz with ⟨d, hd1, hd2⟩
          rw [hd1] at hc
          cases hc
          exact hd2
      · unfold endsInDigit at h
        rw [show (cliente_base x).data = clienteBaseL x.data from rfl] at h
        rw [hc] at h
        exact h

/-- Witness for C3 (amended): `cliente_base "Mercantil 01" = "Mercantil"`
does not end in a digit, and a second application leaves it unchanged. -/
theorem cliente_base_idempotent_unless_digit_witness :
    endsInDigit (cliente_base "Mercantil 01") = false
    ∧ cliente_base (cliente_base "Mercantil 01") = cliente_base "Mercantil 01" :=
  ⟨by decide, cliente_base_idempotent_unless_digit "Mercantil 01" (by decide)⟩
